import Mathlib

/-!
Verification development for the ghostradio job-orchestration engine.

The definitions below are a shallow embedding of the Python sources:

* `src/job_queue.py` — the filesystem job queue (`JobQueue.add_job`,
  `get_pending_jobs`, `mark_processed`, `mark_failed`, `retry_job`);
* `src/job_status_updater.py` — `JobStatusUpdater.update_job`;
* `src/job_models.py` / `src/api_routes.py` — the `Job` object and the
  in-memory `JobManager` (`update`, `cancel`, `cancel_job`, `get_job`,
  `handle_cancel`);
* `src/worker.py` — the status-update / provider-call trace of
  `Worker.process_url` and the failure-handling step of `Worker.run`;
* `src/episode_metadata.py` — `EpisodeMetadataManager.add_episode`;
* the provider registry of the specification (its implementation is not
  part of the checked sources; it is modelled from the spec where used).

File writes are modelled as sequences of observable filesystem states so
that atomicity properties (rename vs. in-place write) can be stated.
-/

namespace GhostRadio

/-- Content of one on-disk JSON file: either fully written, or truncated
mid-write (an interrupted / concurrently observed `open(.., "w")` +
`json.dump`).  A truncated JSON document never parses. -/
inductive FileContent (α : Type) where
  | part : FileContent α
  | full : α → FileContent α
  deriving DecidableEq, Repr

/-- A queue ticket, the JSON document written by `JobQueue.add_job`
(`job_data` dict, src/job_queue.py lines 47-60).  `failed_at` and `error`
are absent (`none`) until `mark_failed` attaches them. -/
structure Ticket where
  queue_id : String
  job_id : String
  user_id : String
  url : String
  llm_model : String
  tts_model : String
  need_summary : Bool
  tts_config : List (String × String)
  created_at : String
  retry_count : Nat
  max_retries : Nat
  last_attempt : Option String
  failed_at : Option String := none
  error : Option String := none
  deriving DecidableEq, Repr

/-- One directory of ticket files: an association list from file name
(the `queue_id`) to file content. -/
abbrev TicketDir := List (String × FileContent Ticket)

/-- The three sibling directories of the queue store
(`queue/`, `processed/`, `failed/`). -/
structure QueueFS where
  queueDir : TicketDir
  processedDir : TicketDir
  failedDir : TicketDir
  deriving DecidableEq, Repr

/-- Does a directory contain a file of the given name? -/
def hasName (d : TicketDir) (n : String) : Bool :=
  d.any (fun p => p.1 = n)

/-- Look up a file's content by name. -/
def lookupName (d : TicketDir) (n : String) : Option (FileContent Ticket) :=
  (d.find? (fun p => p.1 = n)).map (·.2)

/-- Removal (`source.unlink()`) — removal of a file name from a directory. -/
def removeName (d : TicketDir) (n : String) : TicketDir :=
  d.filter (fun p => ¬ p.1 = n)

/-- In how many of the three directories is the ticket file present? -/
def dirCount (fs : QueueFS) (n : String) : Nat :=
  (if hasName fs.queueDir n then 1 else 0) +
  (if hasName fs.processedDir n then 1 else 0) +
  (if hasName fs.failedDir n then 1 else 0)

/-- The invariant claimed by the spec: the ticket file is present in
exactly one of `queue/`, `processed/`, `failed/`. -/
def exactlyOne (fs : QueueFS) (n : String) : Prop :=
  dirCount fs n = 1

instance (fs : QueueFS) (n : String) : Decidable (exactlyOne fs n) := by
  unfold exactlyOne; infer_instance

/-- The ticket document `JobQueue.add_job` assembles (src/job_queue.py
lines 44-60): `last_attempt` is the creation timestamp when
`retry_count > 0`, else `null`. -/
def mkJobTicket (queue_id job_id user_id url llm_model tts_model : String)
    (need_summary : Bool) (tts_config : List (String × String))
    (retry_count max_retries : Nat) (timestamp : String) : Ticket :=
  { queue_id := queue_id
    job_id := job_id
    user_id := user_id
    url := url
    llm_model := llm_model
    tts_model := tts_model
    need_summary := need_summary
    tts_config := tts_config
    created_at := timestamp
    retry_count := retry_count
    max_retries := max_retries
    last_attempt := if retry_count > 0 then some timestamp else none }

/-- Embedding of `JobQueue.add_job`: it writes `queue/<queue_id>.json` with a plain
`open(queue_file, "w")` followed by `json.dump` — an in-place write, not a
temp-file + rename.  The observable states are: (1) the target file
exists truncated (open has created/truncated it, the dump is not yet
flushed complete), (2) the target file holds the full document. -/
def addJobTrace (fs : QueueFS) (t : Ticket) : List QueueFS :=
  [ { fs with queueDir := (t.queue_id, FileContent.part) :: fs.queueDir },
    { fs with queueDir := (t.queue_id, FileContent.full t) :: fs.queueDir } ]

/-- Final state of `JobQueue.add_job`. -/
def addJob (fs : QueueFS) (t : Ticket) : QueueFS :=
  { fs with queueDir := (t.queue_id, FileContent.full t) :: fs.queueDir }

/-- Embedding of `JobQueue.get_pending_jobs`: enumerate `queue/*.json` sorted by file
name; a file that fails to parse (truncated content) is reported and
skipped (src/job_queue.py lines 68-79). -/
def getPendingJobs (fs : QueueFS) : List Ticket :=
  ((fs.queueDir.mergeSort (fun a b => a.1 ≤ b.1)).filterMap
    (fun p => match p.2 with
      | FileContent.full t => some t
      | FileContent.part => none))

/-- Embedding of `JobQueue.mark_processed`: a single `source.rename(dest)` moving the
file from `queue/` into `processed/` (src/job_queue.py lines 81-93); if
the source does not exist the call returns `False` and changes nothing. -/
def markProcessedTrace (fs : QueueFS) (n : String) : List QueueFS :=
  match lookupName fs.queueDir n with
  | some c =>
      [ { fs with
            queueDir := removeName fs.queueDir n
            processedDir := (n, c) :: fs.processedDir } ]
  | none => []

/-- Embedding of `JobQueue.mark_failed` (src/job_queue.py lines 95-116): read the
ticket, attach `failed_at` and `error`, `open(dest, "w")` + `json.dump`
into `failed/`, then `source.unlink()`.  Observable states: (1) the
destination file exists truncated while the source still exists, (2) the
destination holds the full augmented document while the source still
exists, (3) the source has been unlinked.  A missing or unparseable
source returns `False` with no state change. -/
def markFailedTrace (fs : QueueFS) (n : String) (err now : String) :
    List QueueFS :=
  match lookupName fs.queueDir n with
  | some (FileContent.full t) =>
      let t' : Ticket := { t with failed_at := some now, error := some err }
      [ { fs with failedDir := (n, FileContent.part) :: fs.failedDir },
        { fs with failedDir := (n, FileContent.full t') :: fs.failedDir },
        { fs with
            queueDir := removeName fs.queueDir n
            failedDir := (n, FileContent.full t') :: fs.failedDir } ]
  | _ => []

/-- Final state of `JobQueue.mark_failed` (last observable state; the
unchanged state when the source is missing or unparseable). -/
def markFailed (fs : QueueFS) (n : String) (err now : String) : QueueFS :=
  match lookupName fs.queueDir n with
  | some (FileContent.full t) =>
      let t' : Ticket := { t with failed_at := some now, error := some err }
      { fs with
          queueDir := removeName fs.queueDir n
          failedDir := (n, FileContent.full t') :: fs.failedDir }
  | _ => fs

/-- Embedding of `JobQueue.retry_job` (src/job_queue.py lines 118-147): read the
ticket, increment `retry_count`; if the incremented count exceeds
`max_retries` return `None` (no state change — the original file is left
in `queue/`); otherwise re-add via `add_job` under a fresh `queue_id`
(`freshId`, generated from the clock and a uuid) and unlink the original.
A missing or unparseable source raises, is caught, and returns `None`. -/
def retryJob (fs : QueueFS) (n : String) (freshId now : String) :
    Option String × QueueFS :=
  match lookupName fs.queueDir n with
  | some (FileContent.full t) =>
      let rc := t.retry_count + 1
      if rc > t.max_retries then (none, fs)
      else
        let t' := mkJobTicket freshId t.job_id t.user_id t.url
          t.llm_model t.tts_model t.need_summary t.tts_config
          rc t.max_retries now
        let fs1 := addJob fs t'
        (some freshId, { fs1 with queueDir := removeName fs1.queueDir n })
  | _ => (none, fs)

/-- The failure branch of `Worker.run` for one ticket (src/worker.py
lines 407-430): when the job failed, retry while `retry_count <
max_retries` (falling back to `mark_failed` if the retry itself returns
`None`); when retries are exhausted, `mark_failed` directly. -/
def workerFailureStep (fs : QueueFS) (n : String) (t : Ticket)
    (err freshId now : String) : QueueFS :=
  if t.retry_count < t.max_retries then
    match retryJob fs n freshId now with
    | (some _, fs') => fs'
    | (none, fs') => markFailed fs' n err now
  else
    markFailed fs n err now

/-! ### Job status documents and `JobStatusUpdater.update_job` -/

/-- One entry of the `stages` history list
(src/job_status_updater.py lines 62-68). -/
structure StageEntry where
  stage : String
  progress : Nat
  timestamp : String
  deriving DecidableEq, Repr

/-- The `result` object stored on completion (assembled as `result_data`
in src/worker.py lines 313-323); its fields are opaque to the status
machinery. -/
structure ResultData where
  episode_id : String := ""
  audio_url : String := ""
  title : String := ""
  deriving DecidableEq, Repr

/-- A job status document `logs/jobs/<job_id>.json`
(`Job.to_dict`, src/job_models.py lines 88-111). -/
structure JobDoc where
  status : String
  progress : Nat
  message : String
  stage : String
  stages : List StageEntry
  result : Option ResultData
  error : Option String
  error_details : Option String
  completed_at : Option String
  updated_at : String
  cancelled : Bool
  deriving DecidableEq, Repr

/-- The keyword arguments accepted by `JobStatusUpdater.update_job`
(`**kwargs`); `none` means the key is absent from the call. -/
structure UpdateArgs where
  status : Option String := none
  progress : Option Nat := none
  message : Option String := none
  stage : Option String := none
  result : Option ResultData := none
  error : Option String := none
  error_details : Option String := none
  deriving DecidableEq, Repr

/-- The terminal statuses of the state machine
(`COMPLETED`, `FAILED`, `CANCELLED`, `TIMEOUT`). -/
def terminalStatuses : List String :=
  ["completed", "failed", "cancelled", "timeout"]

/-- The field-update body of `JobStatusUpdater.update_job`
(src/job_status_updater.py lines 49-82), applied in source order:
`status`, `progress`, `message`, `stage` (appending to the `stages`
history with the current progress), then `result` (which forces
`status = completed`, `progress = 100` and stamps `completed_at`), then
`error` (which stores `error_details`, forces `status = failed` and
stamps `completed_at`), and finally `updated_at`.  No field is guarded:
a terminal document is updated like any other. -/
def updateJobData (d : JobDoc) (kw : UpdateArgs) (now : String) : JobDoc :=
  let d := match kw.status with
    | some s => { d with status := s }
    | none => d
  let d := match kw.progress with
    | some p => { d with progress := p }
    | none => d
  let d := match kw.message with
    | some m => { d with message := m }
    | none => d
  let d := match kw.stage with
    | some st =>
        { d with
            stage := st
            stages := d.stages ++
              [({ stage := st, progress := kw.progress.getD d.progress,
                  timestamp := now } : StageEntry)] }
    | none => d
  let d := match kw.result with
    | some r =>
        { d with
            result := some r
            status := "completed"
            progress := 100
            completed_at := some now }
    | none => d
  let d := match kw.error with
    | some e =>
        { d with
            error := some e
            error_details := kw.error_details
            status := "failed"
            completed_at := some now }
    | none => d
  { d with updated_at := now }

/-- Embedding of `JobStatusUpdater.update_job` over the `logs/jobs` directory: an
empty `job_id` or a missing/unreadable document returns `False` with no
write; otherwise the updated document is written back in place
(src/job_status_updater.py lines 29-90). -/
def updateJobFile (files : List (String × JobDoc)) (jobId : String)
    (kw : UpdateArgs) (now : String) : Bool × List (String × JobDoc) :=
  if jobId = "" then (false, files)
  else
    match (files.find? (fun p => p.1 = jobId)).map (·.2) with
    | none => (false, files)
    | some d =>
        (true, files.map (fun p =>
          if p.1 = jobId then (p.1, updateJobData d kw now) else p))

/-! ### The worker pipeline trace (`Worker.process_url`) -/

/-- An observable event of `Worker.process_url`: a call to
`JobStatusUpdater.update_job`, or an outbound provider call
(content fetch, LLM chat, TTS synthesis). -/
inductive WEvent where
  | update : UpdateArgs → WEvent
  | callFetch : WEvent
  | callLLM : WEvent
  | callTTS : WEvent
  deriving DecidableEq, Repr

/-- Where a single run of `Worker.process_url` stops: the raise sites of
the `try` block (fetch failure, LLM failure, script-file write failure,
TTS/duration failure, a failure after the 90% update such as cleanup),
or successful completion. -/
inductive RunOutcome where
  | fetchFail
  | llmFail
  | scriptFail
  | ttsFail
  | cleanupFail
  | success
  deriving DecidableEq, Repr

/-- The failure update issued by the `except` handler of
`Worker.process_url` (src/worker.py lines 346-351):
`status=FAILED, error=…, message=…` — no `progress` key. -/
def failUpdate (err : String) : UpdateArgs :=
  { status := some "failed", error := some err,
    message := some ("处理失败: " ++ err) }

/-- The event trace of one run of `Worker.process_url` with a `job_id`
(src/worker.py lines 154-353).  The sub-trace before the LLM step is
`[update(status=processing, progress=10, stage=fetching), fetch]`; the
middle writes progress 25 (stage `llm_processing`) and 50 when
summarising, or 50 alone when not; the tail writes progress 60 (stage
`tts_generating`), 90, and the completion update
`status=COMPLETED, progress=100, result=…`.  Nothing in the function
reads the job document, so the trace does not depend on its `cancelled`
flag and no event ever writes status `cancelled`. -/
def processUrlEvents (needSummary : Bool) (o : RunOutcome) (err : String)
    (r : ResultData) : List WEvent :=
  let u10 : WEvent := .update
    { status := some "processing", progress := some 10,
      message := some "开始抓取内容...", stage := some "fetching" }
  let u25 : WEvent := .update
    { progress := some 25, message := some "正在生成播客脚本...",
      stage := some "llm_processing" }
  let u50 : WEvent := .update
    { progress := some 50, message := some "脚本生成完成" }
  let u50b : WEvent := .update
    { progress := some 50, message := some "跳过总结，直接使用正文" }
  let u60 : WEvent := .update
    { progress := some 60, message := some "正在合成语音...",
      stage := some "tts_generating" }
  let u90 : WEvent := .update
    { progress := some 90, message := some "正在保存节目信息..." }
  let uDone : WEvent := .update
    { status := some "completed", progress := some 100,
      message := some "播客生成成功！", result := some r }
  let pre : List WEvent := [u10, .callFetch]
  let mid : List WEvent :=
    if needSummary then [u25, .callLLM, u50] else [u50b]
  match o with
  | .fetchFail => pre ++ [.update (failUpdate err)]
  | .llmFail =>
      pre ++ (if needSummary then [u25, .callLLM] else []) ++
        [.update (failUpdate err)]
  | .scriptFail => pre ++ mid ++ [.update (failUpdate err)]
  | .ttsFail => pre ++ mid ++ [u60, .callTTS, .update (failUpdate err)]
  | .cleanupFail =>
      pre ++ mid ++ [u60, .callTTS, u90, .update (failUpdate err)]
  | .success => pre ++ mid ++ [u60, .callTTS, u90, uDone]

/-- Apply a worker event trace to a job status document: each `update`
event goes through `updateJobData`; provider calls do not touch the
document. -/
def applyEvents (d : JobDoc) (tr : List WEvent) (now : String) : JobDoc :=
  tr.foldl (fun acc e =>
    match e with
    | .update kw => updateJobData acc kw now
    | _ => acc) d

/-- The sequence of `progress` values carried by the update events of a
trace (the values written to the job status). -/
def progressWrites (tr : List WEvent) : List Nat :=
  tr.filterMap (fun e =>
    match e with
    | .update kw => kw.progress
    | _ => none)

/-- The sequence of `status` values carried by the update events. -/
def statusWrites (tr : List WEvent) : List String :=
  tr.filterMap (fun e =>
    match e with
    | .update kw => kw.status
    | _ => none)

/-! ### The in-memory `Job` and `JobManager` (src/api_routes.py) -/

/-- The in-memory `Job` object of src/api_routes.py (lines 40-68);
fields not read by the operations under study are omitted
(`stage_start_time`, timestamps). -/
structure MJob where
  id : String
  url : String
  llm_model : String
  tts_model : String
  status : String := "pending"
  progress : Nat := 0
  message : String := "等待处理"
  completed_at : Option String := none
  result : Option ResultData := none
  error : Option String := none
  error_details : Option String := none
  cancelled : Bool := false
  stage : String := ""
  stages : List StageEntry := []
  deriving DecidableEq, Repr

/-- The stage-history progress recorded by `Job.update`
(`progress or self.progress`, src/api_routes.py line 115): Python `or`
falls back to the current progress when the argument is `None` or `0`. -/
def orProgress (p : Option Nat) (cur : Nat) : Nat :=
  match p with
  | some v => if v = 0 then cur else v
  | none => cur

/-- Embedding of `Job.update` (src/api_routes.py lines 91-117): `status`, `message`
and `stage` are applied only when truthy (non-empty); `progress` when
present; a truthy `stage` appends a history entry. -/
def jobUpdate (j : MJob) (status : Option String) (progress : Option Nat)
    (message : Option String) (stage : Option String) (now : String) :
    MJob :=
  let j := match status with
    | some s => if s = "" then j else { j with status := s }
    | none => j
  let j := match progress with
    | some p => { j with progress := p }
    | none => j
  let j := match message with
    | some m => if m = "" then j else { j with message := m }
    | none => j
  match stage with
  | some st =>
      if st = "" then j
      else
        { j with
            stage := st
            stages := j.stages ++
              [({ stage := st, progress := orProgress progress j.progress,
                  timestamp := now } : StageEntry)] }
  | none => j

/-- Embedding of `Job.cancel` (src/api_routes.py lines 139-144): set the `cancelled`
flag, status `CANCELLED`, a message, and `completed_at`. -/
def jobCancel (j : MJob) (reason now : String) : MJob :=
  { j with
      cancelled := true
      status := "cancelled"
      message := "已取消: " ++ reason
      completed_at := some now }

/-- The `JobManager` state: the in-memory `_jobs` cache and the
`logs/jobs` directory that `_save_job` writes `to_dict()` snapshots
into.  Both are association lists keyed by `job_id`. -/
structure ManagerState where
  jobs : List (String × MJob)
  disk : List (String × MJob)
  deriving DecidableEq, Repr

/-- Association-list lookup, the shape of `self._jobs.get(job_id)`. -/
def lookupJob (l : List (String × MJob)) (jobId : String) : Option MJob :=
  (l.find? (fun p => p.1 = jobId)).map (·.2)

/-- Replace the value stored under a key. -/
def storeJob (l : List (String × MJob)) (jobId : String) (j : MJob) :
    List (String × MJob) :=
  if l.any (fun p => p.1 = jobId) then
    l.map (fun p => if p.1 = jobId then (p.1, j) else p)
  else
    (jobId, j) :: l

/-- Embedding of `JobManager._save_job` (src/api_routes.py lines 321-326): write the
job's snapshot to `logs/jobs/<id>.json`. -/
def saveJob (m : ManagerState) (j : MJob) : ManagerState :=
  { m with disk := storeJob m.disk j.id j }

/-- Embedding of `JobManager.update_job` (src/api_routes.py lines 241-257): update
the in-memory job — if it is in the cache — and save it; a job missing
from the cache is left untouched. -/
def managerUpdateJob (m : ManagerState) (jobId : String)
    (status : Option String) (progress : Option Nat)
    (message : Option String) (stage : Option String) (now : String) :
    ManagerState :=
  match lookupJob m.jobs jobId with
  | some j =>
      let j' := jobUpdate j status progress message stage now
      saveJob { m with jobs := storeJob m.jobs jobId j' } j'
  | none => m

/-- Embedding of `JobManager.cancel_job` (src/api_routes.py lines 288-299): consult
only the in-memory `_jobs` cache; cancel — and save — only when the
cached status is one of `PENDING`, `QUEUED`, `PROCESSING`; in every
other case (including a cache miss) return `False` and change nothing. -/
def cancelJob (m : ManagerState) (jobId reason now : String) :
    Bool × ManagerState :=
  match lookupJob m.jobs jobId with
  | some j =>
      if j.status = "pending" ∨ j.status = "queued" ∨
          j.status = "processing" then
        let j' := jobCancel j reason now
        (true, saveJob { m with jobs := storeJob m.jobs jobId j' } j')
      else (false, m)
  | none => (false, m)

/-- Embedding of `JobManager.get_job` (src/api_routes.py lines 207-239): return the
cached job if present; otherwise load the on-disk document — restoring
`status`, `progress`, `message`, `error`, `error_details`, `result` and
`cancelled` — into the cache. -/
def getJob (m : ManagerState) (jobId : String) :
    Option MJob × ManagerState :=
  match lookupJob m.jobs jobId with
  | some j => (some j, m)
  | none =>
      match lookupJob m.disk jobId with
      | some d =>
          let j : MJob :=
            { id := d.id, url := d.url, llm_model := d.llm_model,
              tts_model := d.tts_model,
              status := d.status, progress := d.progress,
              message := d.message, error := d.error,
              error_details := d.error_details, result := d.result,
              cancelled := d.cancelled }
          (some j, { m with jobs := (jobId, j) :: m.jobs })
      | none => (none, m)

/-- The HTTP outcome of `handle_cancel` (src/api_routes.py
lines 524-543). -/
inductive CancelResp where
  | ok : CancelResp
  | notFound : CancelResp
  | cannotCancel : String → CancelResp
  deriving DecidableEq, Repr

/-- The HTTP status code carried by each `handle_cancel` outcome. -/
def CancelResp.code : CancelResp → Nat
  | .ok => 200
  | .notFound => 404
  | .cannotCancel _ => 400

/-- Embedding of `handle_cancel` (src/api_routes.py lines 524-543): attempt
`cancel_job`; on success 200, otherwise 404 when the job is unknown and
400 carrying the job's current status when it exists but is not
cancellable. -/
def handleCancel (m : ManagerState) (jobId now : String) :
    CancelResp × ManagerState :=
  match cancelJob m jobId "用户取消" now with
  | (true, m') => (.ok, m')
  | (false, m') =>
      match getJob m' jobId with
      | (none, m'') => (.notFound, m'')
      | (some j, m'') => (.cannotCancel j.status, m'')

/-! ### Provider registry (modelled from the spec) -/

/-- One provider registry entry: kind (LLM or TTS), vendor id and
model/voice id. -/
structure ProvEntry where
  vendor : String
  model : String
  deriving DecidableEq, Repr

/-- Errors signalled by the registry. -/
inductive RegistryError where
  | noBackend : RegistryError
  | noFallback : RegistryError
  deriving DecidableEq, Repr

/-- Modelled from the spec: the Provider Registry state for one kind
(LLM or TTS).  The implementation of the registry
(`ModelHealthChecker.report_llm_failure` / `report_tts_failure`) is not
part of the checked sources — only its callers
(`LLMProcessor._try_switch_model`, `TTSGenerator`) and its mocked tests
are — so the state is taken from spec §4.1: an ordered `available` list
and a rotation index `cur_idx`. -/
structure ProviderRegistry where
  kind : String
  available : List ProvEntry
  cur_idx : Nat
  deriving DecidableEq, Repr

/-- Modelled from the spec: `report_failure(kind) → Entry` — "advances
`cur_idx` modulo list length; returns new entry.  If the list has a
single element, fails with *no-fallback*" (spec §4.1); an empty list has
no backend at all.  An error leaves the registry state with the caller
unchanged. -/
def reportFailure (r : ProviderRegistry) :
    Except RegistryError (ProviderRegistry × ProvEntry) :=
  match r.available with
  | [] => .error .noBackend
  | [_] => .error .noFallback
  | e0 :: e1 :: rest =>
      let k := (e0 :: e1 :: rest).length
      let idx := (r.cur_idx + 1) % k
      .ok ({ r with cur_idx := idx }, (e0 :: e1 :: rest).getD idx e0)

/-! ### Episode catalog (`EpisodeMetadataManager.add_episode`) -/

/-- An episode record of `metadata.json`
(src/episode_metadata.py; assembled in src/worker.py lines 284-304).
Fields not read by `add_episode` are omitted. -/
structure Episode where
  id : String
  title : String
  audio_file : String
  deriving DecidableEq, Repr

/-- A user's episode directory: the `metadata.json` episode list
(newest first) together with the set of file names present on disk
(audio files and `<id>.txt` script files). -/
structure UserCatalog where
  episodes : List Episode
  files : List String
  deriving DecidableEq, Repr

/-- Embedding of `EpisodeMetadataManager.add_episode` (src/episode_metadata.py
lines 42-75): an empty id returns `False`; an id already present is
replaced in place; otherwise, when the list has reached `limit`, the
tail entry is popped and its audio file and `<id>.txt` script file are
unlinked (when present), and the new episode is inserted at index 0.
(`pop()` on an empty list raises and the `except` returns `False`.) -/
def addEpisode (c : UserCatalog) (ep : Episode) (limit : Nat) :
    Bool × UserCatalog :=
  if ep.id = "" then (false, c)
  else
    match c.episodes.findIdx? (fun e => e.id = ep.id) with
    | some i => (true, { c with episodes := c.episodes.set i ep })
    | none =>
        if c.episodes.length ≥ limit then
          match c.episodes.getLast? with
          | some removed =>
              let files' := c.files.filter (fun f =>
                ¬ (f = removed.audio_file ∨ f = removed.id ++ ".txt"))
              (true, { episodes := ep :: c.episodes.dropLast,
                       files := files' })
          | none => (false, c)
        else
          (true, { c with episodes := ep :: c.episodes })

/-! ### Helper lemmas -/

/-- After `removeName` the name is gone from the directory. -/
theorem hasName_removeName (d : TicketDir) (n : String) :
    hasName (removeName d n) n = false := by
  simp only [hasName, removeName, List.any_eq_false, decide_eq_true_eq]
  intro p hp
  have := List.of_mem_filter hp
  simpa using this

/-- Removal of one name does not add any other name. -/
theorem hasName_removeName_ne (d : TicketDir) (n n' : String) :
    hasName (removeName d n) n' = true → hasName d n' = true := by
  simp only [hasName, removeName, List.any_eq_true, decide_eq_true_eq]
  rintro ⟨p, hp, he⟩
  exact ⟨p, List.mem_of_mem_filter hp, he⟩

/-- Removal of a different name keeps an existing name present. -/
theorem hasName_removeName_of_ne (d : TicketDir) {n n' : String}
    (hne : n' ≠ n) (h : hasName d n' = true) :
    hasName (removeName d n) n' = true := by
  simp only [hasName, List.any_eq_true, decide_eq_true_eq] at h
  obtain ⟨p, hp, he⟩ := h
  simp only [hasName, removeName, List.any_eq_true, decide_eq_true_eq]
  refine ⟨p, List.mem_filter.mpr ⟨hp, ?_⟩, he⟩
  simp [he, hne]

/-- A successful `lookupName` means the name is present. -/
theorem hasName_of_lookupName {d : TicketDir} {n : String}
    {c : FileContent Ticket} (h : lookupName d n = some c) :
    hasName d n = true := by
  unfold lookupName at h
  cases hf : d.find? (fun p => decide (p.1 = n)) with
  | none => rw [hf] at h; simp at h
  | some p =>
      have hp := List.find?_some hf
      have hm := List.mem_of_find?_eq_some hf
      simp only [hasName, List.any_eq_true]
      exact ⟨p, hm, hp⟩

/-- Looking up a key stored at the head of a directory. -/
theorem lookupName_cons_self (d : TicketDir) (n : String)
    (c : FileContent Ticket) :
    lookupName ((n, c) :: d) n = some c := by
  simp [lookupName, List.find?]

/-- A name just written at the head of a directory is present. -/
theorem hasName_cons_self (d : TicketDir) (n : String)
    (c : FileContent Ticket) :
    hasName ((n, c) :: d) n = true := by
  simp [hasName]

/-- Removing one name leaves lookups of any other name unchanged. -/
theorem lookupName_removeName_of_ne {n n' : String} (hne : n' ≠ n)
    (d : TicketDir) :
    lookupName (removeName d n) n' = lookupName d n' := by
  induction d with
  | nil => rfl
  | cons p l ih =>
      unfold removeName lookupName at *
      rw [List.filter_cons]
      by_cases hp : p.1 = n
      · rw [if_neg (by simp [hp]), List.find?_cons_of_neg]
        · exact ih
        · simp [hp, Ne.symm hne]
      · rw [if_pos (by simp [hp])]
        by_cases hp' : p.1 = n'
        · rw [List.find?_cons_of_pos, List.find?_cons_of_pos] <;>
            simp [hp']
        · rw [List.find?_cons_of_neg, List.find?_cons_of_neg]
          · exact ih
          · simp [hp']
          · simp [hp']

/-- Sample data used by the concrete counterexamples and witnesses. -/
def sampleTicket : Ticket :=
  mkJobTicket "q1" "job1" "default" "http://example.test/a"
    "nvidia" "volcengine" true [] 0 3 "T0"

/-- A queue store holding exactly the sample ticket, pending. -/
def fsQ1 : QueueFS :=
  { queueDir := [("q1", FileContent.full sampleTicket)]
    processedDir := []
    failedDir := [] }

/-- An empty queue store. -/
def fsEmpty : QueueFS :=
  { queueDir := [], processedDir := [], failedDir := [] }

/-- A ticket whose retries are exhausted
(`retry_count = max_retries = 3`). -/
def exhaustedTicket : Ticket :=
  mkJobTicket "q9" "job9" "default" "http://example.test/b"
    "nvidia" "volcengine" true [] 3 3 "T0"

/-- A queue store holding the exhausted ticket, pending. -/
def fsQ9 : QueueFS :=
  { queueDir := [("q9", FileContent.full exhaustedTicket)]
    processedDir := []
    failedDir := [] }

/-! ### C1 — queue / processed / failed membership -/

/-- C1, counterexample.  The claim asserts that every transition is a
single atomic rename and that `mark_failed` has no observable
intermediate state with the ticket in both `queue/` and `failed/`.  On
the concrete store `fsQ1`, the `mark_failed` trace contains a state in
which the ticket file `q1` is present in `queue/` and in `failed/`
simultaneously (the destination is written before the source is
unlinked), so the exactly-one invariant is violated mid-transition. -/
theorem C1_mark_failed_intermediate_both :
    ((markFailedTrace fsQ1 "q1" "boom" "T1").any (fun s =>
      hasName s.queueDir "q1" && hasName s.failedDir "q1")) = true ∧
    ((markFailedTrace fsQ1 "q1" "boom" "T1").any (fun s =>
      decide (dirCount s "q1" = 2))) = true := by
  constructor <;> decide

/-- C1, amended: `mark_processed` is a single atomic rename preserving
the exactly-one invariant, while `mark_failed` is a write into `failed/`
followed by an unlink from `queue/`: the ticket is present in at least
one directory at every observable state and ends up only in `failed/`,
but there is an intermediate state in which it is present in both
`queue/` and `failed/`. -/
theorem C1_amended_queue_transitions (fs : QueueFS) (n : String)
    (t : Ticket) (err now : String)
    (hq : lookupName fs.queueDir n = some (FileContent.full t))
    (hp : hasName fs.processedDir n = false)
    (hf : hasName fs.failedDir n = false) :
    ((markProcessedTrace fs n).length = 1 ∧
      ∀ s ∈ markProcessedTrace fs n, exactlyOne s n) ∧
    (∀ s ∈ markFailedTrace fs n err now, 1 ≤ dirCount s n) ∧
    (∃ s ∈ markFailedTrace fs n err now,
      hasName s.queueDir n = true ∧ hasName s.failedDir n = true) ∧
    (hasName (markFailed fs n err now).queueDir n = false ∧
      hasName (markFailed fs n err now).failedDir n = true ∧
      exactlyOne (markFailed fs n err now) n) := by
  have hqn : hasName fs.queueDir n = true := hasName_of_lookupName hq
  have hrem := hasName_removeName fs.queueDir n
  refine ⟨⟨?_, ?_⟩, ?_, ?_, ?_⟩
  · simp [markProcessedTrace, hq]
  · intro s hs
    simp only [markProcessedTrace, hq, List.mem_singleton] at hs
    subst hs
    simp [exactlyOne, dirCount, hrem, hf, hasName_cons_self]
  · intro s hs
    simp only [markFailedTrace, hq, List.mem_cons, List.mem_singleton,
      List.not_mem_nil, or_false] at hs
    rcases hs with h1 | h2 | h3 <;> subst_vars <;>
      simp [dirCount, hqn, hrem, hasName_cons_self]
  · refine ⟨{ fs with failedDir :=
      (n, FileContent.part) :: fs.failedDir }, ?_, ?_, ?_⟩
    · simp [markFailedTrace, hq]
    · simpa using hqn
    · simpa using hasName_cons_self fs.failedDir n FileContent.part
  · refine ⟨?_, ?_, ?_⟩
    · simp [markFailed, hq, hrem]
    · simp [markFailed, hq, hasName_cons_self]
    · simp [exactlyOne, dirCount, markFailed, hq, hrem, hp,
        hasName_cons_self]

/-- C1, witness: the amended theorem applied to the concrete store
`fsQ1`. -/
theorem C1_amended_queue_transitions_witness :
    ((markProcessedTrace fsQ1 "q1").length = 1 ∧
      ∀ s ∈ markProcessedTrace fsQ1 "q1", exactlyOne s "q1") ∧
    (∀ s ∈ markFailedTrace fsQ1 "q1" "boom" "T1", 1 ≤ dirCount s "q1") ∧
    (∃ s ∈ markFailedTrace fsQ1 "q1" "boom" "T1",
      hasName s.queueDir "q1" = true ∧ hasName s.failedDir "q1" = true) ∧
    (hasName (markFailed fsQ1 "q1" "boom" "T1").queueDir "q1" = false ∧
      hasName (markFailed fsQ1 "q1" "boom" "T1").failedDir "q1" = true ∧
      exactlyOne (markFailed fsQ1 "q1" "boom" "T1") "q1") :=
  C1_amended_queue_transitions fsQ1 "q1" sampleTicket "boom" "T1"
    (by decide) (by decide) (by decide)

/-! ### C6 — atomicity of the authoritative JSON writes -/

/-- C6, counterexample.  The claim asserts every authoritative JSON
write goes through a temporary file plus rename, so no observable state
ever holds a partially written target.  `JobQueue.add_job` writes the
target `queue/<queue_id>.json` in place: on the concrete empty store the
add trace contains a state in which the target file itself is present
with truncated content. -/
theorem C6_add_job_exposes_partial_write :
    ((addJobTrace fsEmpty sampleTicket).any (fun s =>
      s.queueDir.any (fun p =>
        p.1 = sampleTicket.queue_id && p.2 = FileContent.part))) = true := by
  decide

/-- C6, amended: `add_job` (and likewise the job-status and metadata
writers) writes the target file in place, so an interruption between
`open` and the completed `json.dump` leaves a truncated ticket file in
`queue/`; `get_pending_jobs`, however, skips files that fail to parse,
so the set of tickets it returns is unchanged by the interrupted write,
and the completed write makes the ticket visible. -/
theorem C6_amended_in_place_writes (fs : QueueFS) (t : Ticket)
    (hfresh : hasName fs.queueDir t.queue_id = false) :
    (addJobTrace fs t).head? =
      some { fs with queueDir :=
        (t.queue_id, FileContent.part) :: fs.queueDir } ∧
    hasName ((t.queue_id, FileContent.part) :: fs.queueDir)
      t.queue_id = true ∧
    (∀ u : Ticket,
      u ∈ getPendingJobs { fs with queueDir :=
        (t.queue_id, FileContent.part) :: fs.queueDir } ↔
      u ∈ getPendingJobs fs) ∧
    t ∈ getPendingJobs (addJob fs t) := by
  have hmem : ∀ (d : TicketDir) (u : Ticket),
      u ∈ getPendingJobs { fs with queueDir := d } ↔
      ∃ p ∈ d, p.2 = FileContent.full u := by
    intro d u
    simp only [getPendingJobs, List.mem_filterMap]
    constructor
    · rintro ⟨p, hp, he⟩
      refine ⟨p, ((d.mergeSort_perm _).mem_iff).mp hp, ?_⟩
      cases hc : p.2 <;> rw [hc] at he <;> simp_all
    · rintro ⟨p, hp, he⟩
      refine ⟨p, ((d.mergeSort_perm _).mem_iff).mpr hp, ?_⟩
      rw [he]
  refine ⟨rfl, hasName_cons_self _ _ _, ?_, ?_⟩
  · intro u
    rw [hmem, show getPendingJobs fs =
      getPendingJobs { fs with queueDir := fs.queueDir } from rfl, hmem]
    constructor
    · rintro ⟨p, hp, he⟩
      rcases List.mem_cons.mp hp with rfl | hp'
      · simp at he
      · exact ⟨p, hp', he⟩
    · rintro ⟨p, hp, he⟩
      exact ⟨p, List.mem_cons_of_mem _ hp, he⟩
  · rw [show addJob fs t = { fs with queueDir :=
      (t.queue_id, FileContent.full t) :: fs.queueDir } from rfl, hmem]
    exact ⟨(t.queue_id, FileContent.full t), List.mem_cons_self _ _, rfl⟩

/-- C6, witness: the amended theorem applied to the empty store and the
sample ticket. -/
theorem C6_amended_in_place_writes_witness :
    (addJobTrace fsEmpty sampleTicket).head? =
      some { fsEmpty with queueDir :=
        [(sampleTicket.queue_id, FileContent.part)] } ∧
    hasName [(sampleTicket.queue_id, FileContent.part)]
      sampleTicket.queue_id = true ∧
    (∀ u : Ticket,
      u ∈ getPendingJobs { fsEmpty with queueDir :=
        [(sampleTicket.queue_id, FileContent.part)] } ↔
      u ∈ getPendingJobs fsEmpty) ∧
    sampleTicket ∈ getPendingJobs (addJob fsEmpty sampleTicket) :=
  C6_amended_in_place_writes fsEmpty sampleTicket (by decide)

/-! ### C7 — retry semantics -/

/-- C7, counterexample.  The claim asserts that when the incremented
retry count exceeds `max_retries`, `retry_job` returns nil *and the
ticket is marked failed (moved to `failed/`)*.  On the concrete store
holding `exhaustedTicket` (`retry_count = max_retries = 3`), `retry_job`
returns `None` and changes nothing: the ticket file is still in `queue/`
and `failed/` stays empty. -/
theorem C7_retry_exhausted_not_marked_failed :
    retryJob fsQ9 "q9" "qfresh" "T2" = (none, fsQ9) ∧
    hasName fsQ9.queueDir "q9" = true ∧
    hasName fsQ9.failedDir "q9" = false := by
  refine ⟨?_, by decide, by decide⟩
  decide

/-- C7, amended: `retry_job` reads the ticket and increments
`retry_count` by exactly one; when the incremented count is within
`max_retries` it re-adds the ticket under the fresh `queue_id` and
deletes the original; otherwise it returns nil and leaves the store
unchanged (the original ticket stays in `queue/`).  Moving the ticket to
`failed/` is done by the caller: the failure branch of `Worker.run`
calls `mark_failed` when retries are exhausted. -/
theorem C7_amended_retry_semantics (fs : QueueFS) (n : String)
    (t : Ticket) (err freshId now : String)
    (hq : lookupName fs.queueDir n = some (FileContent.full t))
    (hfresh : hasName fs.queueDir freshId = false) :
    (t.retry_count + 1 ≤ t.max_retries →
      (retryJob fs n freshId now).1 = some freshId ∧
      lookupName (retryJob fs n freshId now).2.queueDir freshId =
        some (FileContent.full (mkJobTicket freshId t.job_id t.user_id
          t.url t.llm_model t.tts_model t.need_summary t.tts_config
          (t.retry_count + 1) t.max_retries now)) ∧
      hasName (retryJob fs n freshId now).2.queueDir n = false) ∧
    (t.retry_count + 1 > t.max_retries →
      retryJob fs n freshId now = (none, fs)) ∧
    (t.max_retries ≤ t.retry_count →
      workerFailureStep fs n t err freshId now = markFailed fs n err now ∧
      hasName (workerFailureStep fs n t err freshId now).failedDir n =
        true ∧
      hasName (workerFailureStep fs n t err freshId now).queueDir n =
        false) := by
  have hnfresh : n ≠ freshId := by
    intro he
    subst he
    rw [hasName_of_lookupName hq] at hfresh
    simp at hfresh
  refine ⟨?_, ?_, ?_⟩
  · intro hle
    have hnot : ¬ t.retry_count + 1 > t.max_retries := by omega
    refine ⟨?_, ?_, ?_⟩
    · simp [retryJob, hq, hnot]
    · simp only [retryJob, hq, if_neg hnot, addJob]
      rw [lookupName_removeName_of_ne (Ne.symm hnfresh)]
      exact lookupName_cons_self fs.queueDir freshId _
    · simp only [retryJob, hq, if_neg hnot]
      exact hasName_removeName _ _
  · intro hgt
    simp [retryJob, hq, hgt]
  · intro hex
    have hnot : ¬ t.retry_count < t.max_retries := by omega
    have hms : workerFailureStep fs n t err freshId now =
        markFailed fs n err now := by
      simp [workerFailureStep, hnot]
    refine ⟨hms, ?_, ?_⟩
    · rw [hms]; simp [markFailed, hq, hasName_cons_self]
    · rw [hms]; simp [markFailed, hq, hasName_removeName]

/-- C7, witness: the amended theorem applied to the concrete stores
`fsQ1` (a ticket with retries remaining) and `fsQ9` (exhausted). -/
theorem C7_amended_retry_semantics_witness :
    ((retryJob fsQ1 "q1" "qfresh" "T2").1 = some "qfresh" ∧
      lookupName (retryJob fsQ1 "q1" "qfresh" "T2").2.queueDir "qfresh" =
        some (FileContent.full (mkJobTicket "qfresh" "job1" "default"
          "http://example.test/a" "nvidia" "volcengine" true [] 1 3
          "T2")) ∧
      hasName (retryJob fsQ1 "q1" "qfresh" "T2").2.queueDir "q1" =
        false) ∧
    (workerFailureStep fsQ9 "q9" exhaustedTicket "boom" "qfresh" "T2" =
        markFailed fsQ9 "q9" "boom" "T2" ∧
      hasName (workerFailureStep fsQ9 "q9" exhaustedTicket "boom"
        "qfresh" "T2").failedDir "q9" = true ∧
      hasName (workerFailureStep fsQ9 "q9" exhaustedTicket "boom"
        "qfresh" "T2").queueDir "q9" = false) :=
  ⟨(C7_amended_retry_semantics fsQ1 "q1" sampleTicket "boom" "qfresh"
      "T2" (by decide) (by decide)).1 (by decide),
   (C7_amended_retry_semantics fsQ9 "q9" exhaustedTicket "boom" "qfresh"
      "T2" (by decide) (by decide)).2.2 (by decide)⟩

/-! ### C2 — terminal status immutability -/

/-- A job status document that has completed. -/
def completedDoc : JobDoc :=
  { status := "completed", progress := 100, message := "播客生成成功！",
    stage := "tts_generating", stages := [], result := some {},
    error := none, error_details := none, completed_at := some "T0",
    updated_at := "T0", cancelled := false }

/-- An in-memory job that has completed. -/
def completedMJob : MJob :=
  { id := "j0", url := "http://example.test/a", llm_model := "nvidia",
    tts_model := "volcengine", status := "completed", progress := 100,
    completed_at := some "T0" }

/-- C2, counterexample.  The claim asserts that once a job status is
terminal, every subsequent write leaves the status field unchanged.
Neither writer guards terminal states: updating the concrete completed
document with `status="processing"` changes its status, through
`JobStatusUpdater.update_job` and through `JobManager.update_job`'s
`Job.update` alike. -/
theorem C2_terminal_status_overwritten :
    completedDoc.status = "completed" ∧
    (updateJobData completedDoc { status := some "processing" }
      "T1").status = "processing" ∧
    completedMJob.status = "completed" ∧
    (jobUpdate completedMJob (some "processing") none none none
      "T1").status = "processing" := by
  refine ⟨rfl, ?_, rfl, ?_⟩ <;> decide

/-- C2, amended: neither `JobStatusUpdater.update_job` nor
`JobManager.update_job` protects terminal documents — a `status` keyword
argument overwrites the status field of a terminal document like any
other.  The writes that *reach* a terminal status through the dedicated
paths do stamp `completed_at`: a `result` argument forces
`status=completed, progress=100, completed_at=now`, an `error` argument
forces `status=failed, completed_at=now`, and `Job.cancel` sets
`completed_at` alongside `status=cancelled`. -/
theorem C2_amended_terminal_writes :
    (∀ (d : JobDoc) (kw : UpdateArgs) (r : ResultData) (now : String),
      kw.result = some r → kw.error = none →
      (updateJobData d kw now).status = "completed" ∧
      (updateJobData d kw now).progress = 100 ∧
      (updateJobData d kw now).completed_at = some now) ∧
    (∀ (d : JobDoc) (kw : UpdateArgs) (e : String) (now : String),
      kw.error = some e →
      (updateJobData d kw now).status = "failed" ∧
      (updateJobData d kw now).completed_at = some now) ∧
    (∀ (d : JobDoc) (s now : String), d.status ∈ terminalStatuses →
      (updateJobData d { status := some s } now).status = s) ∧
    (∀ (j : MJob) (s now : String), j.status ∈ terminalStatuses →
      s ≠ "" → (jobUpdate j (some s) none none none now).status = s) ∧
    (∀ (j : MJob) (reason now : String),
      (jobCancel j reason now).status = "cancelled" ∧
      (jobCancel j reason now).completed_at = some now) := by
  refine ⟨?_, ?_, ?_, ?_, ?_⟩
  · intro d kw r now hr he
    obtain ⟨st, pr, ms, sg, rs, er, ed⟩ := kw
    cases st <;> cases pr <;> cases ms <;> cases sg <;> cases rs <;>
      cases er <;> simp_all [updateJobData]
  · intro d kw e now he
    obtain ⟨st, pr, ms, sg, rs, er, ed⟩ := kw
    cases st <;> cases pr <;> cases ms <;> cases sg <;> cases rs <;>
      cases er <;> simp_all [updateJobData]
  · intro d s now _
    simp [updateJobData]
  · intro j s now _ hs
    simp [jobUpdate, hs]
  · intro j reason now
    exact ⟨rfl, rfl⟩

/-- C2, witness: the amended theorem applied to the completed sample
document and job. -/
theorem C2_amended_terminal_writes_witness :
    ((updateJobData completedDoc { result := some {} } "T1").status =
        "completed" ∧
      (updateJobData completedDoc { result := some {} } "T1").progress =
        100 ∧
      (updateJobData completedDoc { result := some {} } "T1").completed_at
        = some "T1") ∧
    ((updateJobData completedDoc { error := some "boom" } "T1").status =
        "failed" ∧
      (updateJobData completedDoc { error := some "boom" }
        "T1").completed_at = some "T1") ∧
    (updateJobData completedDoc { status := some "processing" }
      "T1").status = "processing" ∧
    (jobUpdate completedMJob (some "processing") none none none
      "T1").status = "processing" :=
  ⟨C2_amended_terminal_writes.1 completedDoc { result := some {} } {}
      "T1" rfl rfl,
   C2_amended_terminal_writes.2.1 completedDoc { error := some "boom" }
      "boom" "T1" rfl,
   C2_amended_terminal_writes.2.2.1 completedDoc "processing" "T1"
      (by decide),
   C2_amended_terminal_writes.2.2.2.1 completedMJob "processing" "T1"
      (by decide) (by decide)⟩

/-! ### C3 — cancellation checks in the worker pipeline -/

/-- A job status document whose `cancelled` flag has been set (the shape
written by `Job.cancel` before the worker picks the job up). -/
def cancelledDoc : JobDoc :=
  { status := "cancelled", progress := 0, message := "已取消: 用户取消",
    stage := "", stages := [], result := none, error := none,
    error_details := none, completed_at := some "T0", updated_at := "T0",
    cancelled := true }

/-- C3, counterexample.  The claim asserts the worker observes the
`cancelled` flag at each inter-stage boundary and exits with status
`CANCELLED` without further provider calls.  `Worker.process_url` never
reads the job document: on the concrete cancelled document, a
successful run still performs the fetch, LLM and TTS provider calls and
overwrites the status to `completed` — never `cancelled`. -/
theorem C3_cancelled_job_processed_fully :
    cancelledDoc.cancelled = true ∧
    WEvent.callFetch ∈ processUrlEvents true RunOutcome.success "" {} ∧
    WEvent.callLLM ∈ processUrlEvents true RunOutcome.success "" {} ∧
    WEvent.callTTS ∈ processUrlEvents true RunOutcome.success "" {} ∧
    (applyEvents cancelledDoc
      (processUrlEvents true RunOutcome.success "" {}) "T1").status =
      "completed" := by
  refine ⟨rfl, ?_, ?_, ?_, ?_⟩ <;> decide

/-- C3, amended: `Worker.process_url` performs no cancellation check.
Its event trace is a function of the mode and the failure point only —
not of the job document — so for every job whose `cancelled` flag is
set, no update of the run writes status `cancelled`, the run ends with
status `completed` or `failed`, and a successful run performs the
fetch, (when summarising) LLM, and TTS provider calls. -/
theorem C3_amended_no_cancellation_check (ns : Bool) (o : RunOutcome)
    (err : String) (r : ResultData) (d : JobDoc) (now : String)
    (hc : d.cancelled = true) :
    "cancelled" ∉ statusWrites (processUrlEvents ns o err r) ∧
    ((applyEvents d (processUrlEvents ns o err r) now).status =
        "completed" ∨
      (applyEvents d (processUrlEvents ns o err r) now).status =
        "failed") ∧
    (o = RunOutcome.success →
      WEvent.callFetch ∈ processUrlEvents ns o err r ∧
      WEvent.callTTS ∈ processUrlEvents ns o err r ∧
      (ns = true → WEvent.callLLM ∈ processUrlEvents ns o err r)) := by
  cases ns <;> cases o <;>
    simp [processUrlEvents, statusWrites, applyEvents, updateJobData,
      failUpdate]

/-- C3, witness: the amended theorem applied to the concrete cancelled
document and a successful summarising run. -/
theorem C3_amended_no_cancellation_check_witness :
    "cancelled" ∉ statusWrites
      (processUrlEvents true RunOutcome.success "" {}) ∧
    ((applyEvents cancelledDoc
        (processUrlEvents true RunOutcome.success "" {}) "T1").status =
        "completed" ∨
      (applyEvents cancelledDoc
        (processUrlEvents true RunOutcome.success "" {}) "T1").status =
        "failed") ∧
    (RunOutcome.success = RunOutcome.success →
      WEvent.callFetch ∈ processUrlEvents true RunOutcome.success "" {} ∧
      WEvent.callTTS ∈ processUrlEvents true RunOutcome.success "" {} ∧
      (true = true →
        WEvent.callLLM ∈ processUrlEvents true RunOutcome.success ""
          {})) :=
  C3_amended_no_cancellation_check true RunOutcome.success "" {}
    cancelledDoc "T1" rfl

/-! ### C9 — progress monotonicity and completion -/

/-- C9, confirmed: within a single run of `Worker.process_url`, the
sequence of `progress` values written to the job status is monotonically
non-decreasing, and — whatever document the run started from — the final
progress equals 100 exactly when the final status is `completed` (the
completion update writes both together; every failure update leaves the
last written progress, which is at most 90). -/
theorem C9_progress_monotone_completion (ns : Bool) (o : RunOutcome)
    (err : String) (r : ResultData) (d : JobDoc) (now : String) :
    List.Chain' (· ≤ ·) (progressWrites (processUrlEvents ns o err r)) ∧
    ((applyEvents d (processUrlEvents ns o err r) now).progress = 100 ↔
      (applyEvents d (processUrlEvents ns o err r) now).status =
        "completed") := by
  cases ns <;> cases o <;>
    simp [processUrlEvents, progressWrites, applyEvents, updateJobData,
      failUpdate]

/-! ### C4 — which statuses `cancel` accepts -/

/-- An in-memory job currently in the `fetching` stage-status (as
restored by `get_job` from a status document). -/
def fetchingMJob : MJob :=
  { id := "j1", url := "http://example.test/a", llm_model := "nvidia",
    tts_model := "volcengine", status := "fetching", progress := 25 }

/-- A manager holding the fetching job in its cache (and on disk). -/
def mFetch : ManagerState :=
  { jobs := [("j1", fetchingMJob)], disk := [("j1", fetchingMJob)] }

/-- C4, counterexample.  The claim asserts `cancel` succeeds exactly on
{PENDING, QUEUED, PROCESSING, FETCHING, LLM_PROCESSING, TTS_GENERATING}.
`JobManager.cancel_job` accepts only the first three: on the concrete
manager whose job has status `fetching` — one of the claim's cancellable
statuses — the cancel returns `False`, mutates nothing, and the endpoint
answers 400 carrying `fetching`. -/
theorem C4_fetching_not_cancellable :
    fetchingMJob.status = "fetching" ∧
    cancelJob mFetch "j1" "用户取消" "T1" = (false, mFetch) ∧
    handleCancel mFetch "j1" "T1" =
      (CancelResp.cannotCancel "fetching", mFetch) ∧
    (CancelResp.cannotCancel "fetching").code = 400 := by
  refine ⟨rfl, ?_, ?_, rfl⟩ <;> decide

/-- C4, amended: for a job present in the in-memory cache,
`cancel_job` succeeds exactly when its status is one of
{`pending`, `queued`, `processing`}; success sets status `cancelled`,
the `cancelled` flag and `completed_at`, and saves; for every other
status the manager state is unchanged and `handle_cancel` returns 400
carrying the job's current status. -/
theorem C4_amended_cancel_statuses (m : ManagerState)
    (jobId : String) (j : MJob) (reason now : String)
    (hj : lookupJob m.jobs jobId = some j) :
    ((cancelJob m jobId reason now).1 = true ↔
      (j.status = "pending" ∨ j.status = "queued" ∨
        j.status = "processing")) ∧
    ((j.status = "pending" ∨ j.status = "queued" ∨
        j.status = "processing") →
      cancelJob m jobId reason now =
        (true, saveJob
          { m with jobs := storeJob m.jobs jobId (jobCancel j reason now) }
          (jobCancel j reason now)) ∧
      (jobCancel j reason now).status = "cancelled" ∧
      (jobCancel j reason now).cancelled = true ∧
      (jobCancel j reason now).completed_at = some now) ∧
    (¬ (j.status = "pending" ∨ j.status = "queued" ∨
        j.status = "processing") →
      cancelJob m jobId reason now = (false, m) ∧
      handleCancel m jobId now =
        (CancelResp.cannotCancel j.status, m) ∧
      (CancelResp.cannotCancel j.status).code = 400) := by
  by_cases hcond : j.status = "pending" ∨ j.status = "queued" ∨
      j.status = "processing"
  · refine ⟨?_, ?_, ?_⟩
    · simp [cancelJob, hj, hcond]
    · intro _
      refine ⟨?_, rfl, rfl, rfl⟩
      simp [cancelJob, hj, hcond]
    · intro hn
      exact absurd hcond hn
  · refine ⟨?_, ?_, ?_⟩
    · simp [cancelJob, hj, hcond]
    · intro hc
      exact absurd hc hcond
    · intro _
      have hcj : cancelJob m jobId "用户取消" now = (false, m) := by
        simp [cancelJob, hj, hcond]
      refine ⟨by simp [cancelJob, hj, hcond], ?_, rfl⟩
      simp [handleCancel, hcj, getJob, hj]

/-- C4, witness: the amended theorem applied to the fetching manager
(non-cancellable branch) and to a pending job (cancellable branch). -/
theorem C4_amended_cancel_statuses_witness :
    (cancelJob mFetch "j1" "r" "T1" = (false, mFetch) ∧
      handleCancel mFetch "j1" "T1" =
        (CancelResp.cannotCancel fetchingMJob.status, mFetch) ∧
      (CancelResp.cannotCancel fetchingMJob.status).code = 400) ∧
    ((cancelJob
        { jobs := [("j0", completedMJob)], disk := [] } "j0" "r"
        "T1").1 = true ↔ (completedMJob.status = "pending" ∨
        completedMJob.status = "queued" ∨
        completedMJob.status = "processing")) :=
  ⟨(C4_amended_cancel_statuses mFetch "j1" fetchingMJob "r" "T1"
      (by decide)).2.2 (by decide),
   (C4_amended_cancel_statuses
      { jobs := [("j0", completedMJob)], disk := [] } "j0" completedMJob
      "r" "T1" (by decide)).1⟩

/-! ### C10 — cancel consults only the in-memory cache -/

/-- C10, confirmed: `JobManager.cancel_job` reads only `self._jobs`;
for a job id absent from the cache it returns `False` and changes
nothing, even when the on-disk status document exists and carries a
cancellable status. -/
theorem C10_cancel_memory_only (m : ManagerState)
    (jobId reason now : String) (d : MJob)
    (hmem : lookupJob m.jobs jobId = none)
    (hdisk : lookupJob m.disk jobId = some d)
    (hcanc : d.status = "pending" ∨ d.status = "queued" ∨
      d.status = "processing") :
    cancelJob m jobId reason now = (false, m) := by
  simp [cancelJob, hmem]

/-- C10, witness: a manager restarted with an empty cache while the
disk holds a queued job. -/
theorem C10_cancel_memory_only_witness :
    cancelJob
      { jobs := [],
        disk := [("j1", { fetchingMJob with status := "queued" })] }
      "j1" "r" "T1" =
    (false,
      { jobs := [],
        disk := [("j1", { fetchingMJob with status := "queued" })] }) :=
  C10_cancel_memory_only _ "j1" "r" "T1"
    { fetchingMJob with status := "queued" }
    (by decide) (by decide) (by decide)

/-! ### C5 — provider rotation on failure -/

/-- C5, confirmed against the spec-modelled registry: with `k ≥ 2`
available entries, `report_failure` advances `cur_idx` by exactly one
modulo `k` — leaving the available list itself untouched — and returns
the entry at the new index; with `k = 1` it signals *no-fallback* and
the caller's registry state is unchanged. -/
theorem C5_report_failure_rotation (r : ProviderRegistry) (k : Nat)
    (hk : r.available.length = k) :
    (2 ≤ k → ∃ (r' : ProviderRegistry) (e : ProvEntry),
      reportFailure r = Except.ok (r', e) ∧
      r'.cur_idx = (r.cur_idx + 1) % k ∧
      r'.available = r.available ∧
      r'.kind = r.kind ∧
      r.available[(r.cur_idx + 1) % k]? = some e) ∧
    (k = 1 → reportFailure r = Except.error RegistryError.noFallback) := by
  constructor
  · intro h2
    match hav : r.available with
    | [] => rw [hav] at hk; simp at hk; omega
    | [a] => rw [hav] at hk; simp at hk; omega
    | a :: b :: l =>
        have hlen : (a :: b :: l).length = k := by rw [← hav]; exact hk
        refine ⟨{ r with
            cur_idx := (r.cur_idx + 1) % (a :: b :: l).length },
          (a :: b :: l).getD
            ((r.cur_idx + 1) % (a :: b :: l).length) a,
          ?_, by simp [hlen], by simp [hav], rfl, ?_⟩
        · simp only [reportFailure]
          rw [hav]
        · rw [hlen]
          have hmod2 : (r.cur_idx + 1) % k < (a :: b :: l).length := by
            rw [hlen]
            exact Nat.mod_lt _ (by omega)
          simp [List.getD_eq_getElem?_getD,
            List.getElem?_eq_getElem hmod2]
  · intro h1
    match hav : r.available with
    | [] => rw [hav] at hk; simp at hk; omega
    | [a] => simp [reportFailure, hav]
    | a :: b :: l => rw [hav] at hk; simp at hk; omega

/-- A registry with three available TTS entries. -/
def ttsRegistry : ProviderRegistry :=
  { kind := "tts",
    available := [⟨"volcengine", "podcast"⟩, ⟨"openai", "tts-1"⟩,
      ⟨"edge-tts", "zh-CN"⟩],
    cur_idx := 0 }

/-- A registry with a single available LLM entry. -/
def soloRegistry : ProviderRegistry :=
  { kind := "llm", available := [⟨"nvidia", "deepseek"⟩], cur_idx := 0 }

/-- C5, witness: the rotation theorem applied to the three-entry and
one-entry registries. -/
theorem C5_report_failure_rotation_witness :
    (∃ (r' : ProviderRegistry) (e : ProvEntry),
      reportFailure ttsRegistry = Except.ok (r', e) ∧
      r'.cur_idx = (ttsRegistry.cur_idx + 1) % 3 ∧
      r'.available = ttsRegistry.available ∧
      r'.kind = ttsRegistry.kind ∧
      ttsRegistry.available[(ttsRegistry.cur_idx + 1) % 3]? = some e) ∧
    reportFailure soloRegistry =
      Except.error RegistryError.noFallback :=
  ⟨(C5_report_failure_rotation ttsRegistry 3 (by decide)).1 (by decide),
   (C5_report_failure_rotation soloRegistry 1 (by decide)).2 rfl⟩

/-! ### C8 — episode catalog retention -/

/-- C8, confirmed: adding an episode with a fresh, non-empty id to a
catalog that already holds `limit` episodes keeps the size at `limit`,
puts the new episode first, and deletes the previously-oldest entry's
audio file and `<id>.txt` script file from disk; adding an episode whose
id is already present replaces that entry in place and leaves the
catalog length (and the files on disk) unchanged. -/
theorem C8_catalog_retention :
    (∀ (c : UserCatalog) (ep removed : Episode) (N : Nat),
      c.episodes.length = N →
      ep.id ≠ "" →
      (∀ e ∈ c.episodes, e.id ≠ ep.id) →
      c.episodes.getLast? = some removed →
      (addEpisode c ep N).1 = true ∧
      (addEpisode c ep N).2.episodes.length = N ∧
      (addEpisode c ep N).2.episodes.head? = some ep ∧
      removed.audio_file ∉ (addEpisode c ep N).2.files ∧
      (removed.id ++ ".txt") ∉ (addEpisode c ep N).2.files) ∧
    (∀ (c : UserCatalog) (ep : Episode) (limit i : Nat),
      ep.id ≠ "" →
      c.episodes.findIdx? (fun e => e.id = ep.id) = some i →
      addEpisode c ep limit =
        (true, { c with episodes := c.episodes.set i ep })) := by
  constructor
  · intro c ep removed N hN hid hfresh hlast
    have hne : c.episodes ≠ [] := by
      intro h
      rw [h] at hlast
      simp at hlast
    have hidx : c.episodes.findIdx? (fun e => decide (e.id = ep.id)) =
        none := by
      rw [List.findIdx?_eq_none_iff]
      intro e he
      simpa using hfresh e he
    have hge : c.episodes.length ≥ N := hN.ge
    have hNpos : 1 ≤ N := by
      rcases Nat.eq_zero_or_pos N with h0 | h1
      · rw [h0] at hN
        exact absurd (List.eq_nil_of_length_eq_zero hN) hne
      · exact h1
    refine ⟨?_, ?_, ?_, ?_, ?_⟩
    · simp [addEpisode, if_neg hid, hidx, if_pos hge, hlast]
    · simp only [addEpisode, if_neg hid, hidx, if_pos hge, hlast]
      simp [List.length_dropLast, hN]
      omega
    · simp [addEpisode, if_neg hid, hidx, if_pos hge, hlast]
    · simp only [addEpisode, if_neg hid, hidx, if_pos hge, hlast]
      intro hmem
      have := List.mem_filter.mp hmem
      simp at this
    · simp only [addEpisode, if_neg hid, hidx, if_pos hge, hlast]
      intro hmem
      have := List.mem_filter.mp hmem
      simp at this
  · intro c ep limit i hid hidx
    simp [addEpisode, if_neg hid, hidx]

/-- A catalog holding two episodes (newest first) and their files. -/
def twoEpisodeCatalog : UserCatalog :=
  { episodes := [⟨"20250102_000000", "B", "20250102_000000.mp3"⟩,
      ⟨"20250101_000000", "A", "20250101_000000.mp3"⟩],
    files := ["20250102_000000.mp3", "20250102_000000.txt",
      "20250101_000000.mp3", "20250101_000000.txt"] }

/-- The episode added in the C8 witness. -/
def newEpisode : Episode :=
  ⟨"20250103_000000", "C", "20250103_000000.mp3"⟩

/-- The replacement episode (same id as the newest entry) used in the
C8 witness. -/
def replacedEpisode : Episode :=
  ⟨"20250102_000000", "B2", "20250102_000000.mp3"⟩

/-- C8, witness: the retention theorem applied to the concrete
two-episode catalog at cap 2 (fresh id), and the in-place replacement
applied to the same catalog. -/
theorem C8_catalog_retention_witness :
    ((addEpisode twoEpisodeCatalog newEpisode 2).1 = true ∧
      (addEpisode twoEpisodeCatalog newEpisode 2).2.episodes.length =
        2 ∧
      (addEpisode twoEpisodeCatalog newEpisode
        2).2.episodes.head? = some newEpisode ∧
      "20250101_000000.mp3" ∉
        (addEpisode twoEpisodeCatalog newEpisode 2).2.files ∧
      ("20250101_000000" ++ ".txt") ∉
        (addEpisode twoEpisodeCatalog newEpisode 2).2.files) ∧
    addEpisode twoEpisodeCatalog replacedEpisode 2 =
      (true, { twoEpisodeCatalog with episodes :=
        (twoEpisodeCatalog.episodes.set 0 replacedEpisode) }) :=
  ⟨C8_catalog_retention.1 twoEpisodeCatalog newEpisode
      ⟨"20250101_000000", "A", "20250101_000000.mp3"⟩ 2 rfl
      (by decide) (by decide) (by decide),
   C8_catalog_retention.2 twoEpisodeCatalog replacedEpisode 2 0
      (by decide) (by decide)⟩

end GhostRadio
